import Mathlib

/-!
Verification development for the go-rod browser-driver core.

Shallow embedding of the repository source:
- `lib/proto` pattern compilation (`PatternToReg`) together with a model of
  Go `regexp` matching for the regular-expression dialect `PatternToReg`
  emits (literals, `.`, postfix `*`, the anchors `\A` / `\z`);
- the hijack router's paused-request dispatch loop (`HijackRouter.initEvents`);
- the browser domain-state cache (`Browser.set`, `Browser.Call`,
  `Browser.EnableDomain`, `Browser.DisableDomain`, page cache);
- `Browser.PageFromTarget`;
- the page JS-context resolution (`Page.getJSCtxID`, `Page.unsetJSCtxID`,
  `Page.getHelper`, `Page.setHelper`);
- the stale-context retry loop of `Page.Evaluate`.

Remote (CDP) round-trips are modelled by explicit outcome parameters; every
issued protocol call is recorded in a trace so that claims about which calls
are sent can be stated and checked.
-/

set_option autoImplicit false

namespace GoRod

/-! ## A model of Go regexp matching for the dialect produced by PatternToReg

`Reg` is a regular-expression AST; matching is by Brzozowski derivatives.
`parseGoRegex` parses the strings `PatternToReg` produces: an optional `\A`
prefix, an optional `\z` suffix, and a body of literal characters, `.`
(any character), postfix `*`, and backslash escapes.  Unsupported regex
syntax parses to `none` (Go's `regexp.MustCompile` would have to handle it;
none of the regexes relevant here contain it).  `GoReg.matchString` models
`Regexp.MatchString`: an unanchored search unless `\A` / `\z` anchor the
match to the start / end of the string. -/

inductive Reg where
  | emp
  | eps
  | chr (c : Char)
  | any
  | alt (r s : Reg)
  | cat (r s : Reg)
  | star (r : Reg)
  deriving DecidableEq

def Reg.nullable : Reg → Bool
  | .emp => false
  | .eps => true
  | .chr _ => false
  | .any => false
  | .alt r s => r.nullable || s.nullable
  | .cat r s => r.nullable && s.nullable
  | .star _ => true

def Reg.deriv : Reg → Char → Reg
  | .emp, _ => .emp
  | .eps, _ => .emp
  | .chr d, c => if d = c then .eps else .emp
  | .any, _ => .eps
  | .alt r s, c => .alt (r.deriv c) (s.deriv c)
  | .cat r s, c =>
    if r.nullable then .alt (.cat (r.deriv c) s) (s.deriv c) else .cat (r.deriv c) s
  | .star r, c => .cat (r.deriv c) (.star r)

def Reg.fullMatch (r : Reg) (l : List Char) : Bool :=
  (l.foldl Reg.deriv r).nullable

/-- Characters accepted after a backslash (escaped punctuation). -/
def escapableChar (c : Char) : Bool :=
  c = '\\' || c = '*' || c = '?' || c = '.' || c = '+' || c = '(' || c = ')' ||
  c = '[' || c = ']' || c = '|' || c = '^' || c = '/'

/-- Regex metacharacters our body parser does not support as literals. -/
def unsupportedMeta (c : Char) : Bool :=
  c = '?' || c = '+' || c = '(' || c = ')' || c = '[' || c = ']' || c = '|' ||
  c = '^' || c.toNat = 36 || c.toNat = 123 || c.toNat = 125

def flushAtom (acc : Reg) : Option Reg → Reg
  | none => acc
  | some a => .cat acc a

def parseAtoms : Reg → Option Reg → List Char → Option Reg
  | acc, last, [] => some (flushAtom acc last)
  | acc, last, '*' :: rest =>
    match last with
    | some (Reg.star _) => none
    | some a => parseAtoms acc (some (Reg.star a)) rest
    | none => none
  | acc, last, '.' :: rest => parseAtoms (flushAtom acc last) (some Reg.any) rest
  | acc, last, '\\' :: c :: rest =>
    if escapableChar c then parseAtoms (flushAtom acc last) (some (Reg.chr c)) rest
    else none
  | acc, last, c :: rest =>
    if unsupportedMeta c || c = '\\' then none
    else parseAtoms (flushAtom acc last) (some (Reg.chr c)) rest

structure GoReg where
  anchoredStart : Bool
  body : Reg
  anchoredEnd : Bool
  deriving DecidableEq

def parseGoRegex (s : String) : Option GoReg :=
  let l0 := s.toList
  let p : Bool × List Char :=
    match l0 with
    | '\\' :: 'A' :: rest => (true, rest)
    | _ => (false, l0)
  let q : Bool × List Char :=
    match p.2.reverse with
    | 'z' :: '\\' :: rev => (true, rev.reverse)
    | _ => (false, p.2)
  match parseAtoms Reg.eps none q.2 with
  | some r => some ⟨p.1, r, q.1⟩
  | none => none

def tailsOf : List Char → List (List Char)
  | [] => [[]]
  | c :: rest => (c :: rest) :: tailsOf rest

def initsOf : List Char → List (List Char)
  | [] => [[]]
  | c :: rest => [] :: (initsOf rest).map (fun t => c :: t)

def GoReg.matchString (g : GoReg) (s : String) : Bool :=
  let l := s.toList
  let starts := if g.anchoredStart then [l] else tailsOf l
  starts.any fun t =>
    let cands := if g.anchoredEnd then [t] else initsOf t
    cands.any fun u => g.body.fullMatch u

/-- Model of `regexp.MustCompile(re).MatchString(s)`; `none` when `re` uses
syntax outside the modelled dialect. -/
def goRegexpMatch (re s : String) : Option Bool :=
  (parseGoRegex re).map fun g => g.matchString s

/-! ## PatternToReg (lib/proto, part_002)

Go source:
```
var regAsterisk = regexp.MustCompile(`([^\\])\*`)
var regBackSlash = regexp.MustCompile(`([^\\])\?`)

func PatternToReg(pattern string) string {
    if pattern == "" { return "" }
    pattern = " " + pattern
    pattern = regAsterisk.ReplaceAllString(pattern, "$1.*")
    pattern = regBackSlash.ReplaceAllString(pattern, "$1.")
    return `\A` + strings.TrimSpace(pattern) + `\z`
}
```
`replStar` / `replQues` implement the two `ReplaceAllString` calls: a
leftmost, non-overlapping scan replacing a two-character match `c*` (resp.
`c?`) with `c` not a backslash by `c.*` (resp. `c.`). -/

def replStar : List Char → List Char
  | [] => []
  | [c] => [c]
  | c :: a :: rest =>
    if a = '*' then
      if c = '\\' then c :: replStar (a :: rest)
      else c :: '.' :: '*' :: replStar rest
    else c :: replStar (a :: rest)

def replQues : List Char → List Char
  | [] => []
  | [c] => [c]
  | c :: a :: rest =>
    if a = '?' then
      if c = '\\' then c :: replQues (a :: rest)
      else c :: '.' :: replQues rest
    else c :: replQues (a :: rest)

/-- Go `unicode.IsSpace`, as used by `strings.TrimSpace`: the full Unicode
White_Space property — TAB, LF, VT, FF, CR, SPACE, NEL (U+0085),
NBSP (U+00A0), OGHAM SPACE MARK (U+1680), the U+2000..U+200A spaces,
LINE/PARAGRAPH SEPARATOR (U+2028/U+2029), NARROW NBSP (U+202F),
MEDIUM MATHEMATICAL SPACE (U+205F) and IDEOGRAPHIC SPACE (U+3000). -/
def isGoSpace (c : Char) : Bool :=
  c = ' ' || c = '\t' || c = '\n' || c = '\r' ||
  c.toNat = 11 || c.toNat = 12 || c.toNat = 133 || c.toNat = 160 ||
  c.toNat = 0x1680 || (0x2000 ≤ c.toNat && c.toNat ≤ 0x200A) ||
  c.toNat = 0x2028 || c.toNat = 0x2029 || c.toNat = 0x202F ||
  c.toNat = 0x205F || c.toNat = 0x3000

def trimSpaceList (l : List Char) : List Char :=
  ((l.dropWhile isGoSpace).reverse.dropWhile isGoSpace).reverse

def PatternToReg (pattern : String) : String :=
  if pattern = "" then ""
  else
    String.mk
      ('\\' :: 'A' :: trimSpaceList (replQues (replStar (' ' :: pattern.toList))) ++
        ['\\', 'z'])

/-- `regexp.MustCompile(proto.PatternToReg(pattern)).MatchString(url)`, the
match run by `HijackRouter` for a handler with this pattern. -/
def hijackMatches (pattern url : String) : Bool :=
  (goRegexpMatch (PatternToReg pattern) url).getD false

/-! ### Spec-side glob translation (for the refinement statement of C7)

The spec says each unescaped `*` becomes `.*`, each unescaped `?` becomes a
match of any single character, and the result is anchored.  The following
definition follows those words (it is deliberately NOT the source's
two-pass replacement); the C7 theorem compares `PatternToReg` against it. -/

def specGlobTranslate : List Char → List Char
  | [] => []
  | c :: rest =>
    if c = '*' then '.' :: '*' :: specGlobTranslate rest
    else if c = '?' then '.' :: specGlobTranslate rest
    else c :: specGlobTranslate rest

/-- Single pass replacing each `*` by `.*` (intermediate abstraction of the
first `ReplaceAllString`). -/
def starNaive : List Char → List Char
  | [] => []
  | c :: rest => if c = '*' then '.' :: '*' :: starNaive rest else c :: starNaive rest

/-- Single pass replacing each `?` by `.` (intermediate abstraction of the
second `ReplaceAllString`). -/
def quesNaive : List Char → List Char
  | [] => []
  | c :: rest => if c = '?' then '.' :: quesNaive rest else c :: quesNaive rest

def headIs (c : Char) : List Char → Bool
  | [] => false
  | a :: _ => a = c

/-- No two adjacent occurrences of `c`. -/
def noConsecutive (c : Char) : List Char → Bool
  | [] => true
  | a :: rest => (!(a = c && headIs c rest)) && noConsecutive c rest

def noSpaceChar (l : List Char) : Bool :=
  l.all fun c => !isGoSpace c

/-! ## Hijack router dispatch (part_003, HijackRouter.initEvents)

The event callback installed by `initEvents` walks the handler list for each
`FetchRequestPaused` event:
```
for _, h := range r.handlers {
    if !h.regexp.MatchString(e.Request.URL) { continue }
    h.handler(ctx)
    if ctx.continueRequest != nil { ...Call; if err OnError; return }
    if ctx.Skip { continue }
    if ctx.Response.fail.ErrorReason != "" { ...Call; if err OnError; return }
    err := ctx.Response.payload.Call(...)
    if err != nil { ctx.OnError(err); return }
}
```
`runHandlers` is that loop.  `sendErr` gives the outcome of each protocol
call sent to the remote (`none` = success); `DispatchOut` records the
directives sent, the errors handed to the `OnError` sink, and the patterns
of the handlers that were invoked. -/

structure HijackCtxM where
  skip : Bool
  contReq : Bool
  failReason : String
  body : String
  deriving DecidableEq

def initialHijackCtx : HijackCtxM := ⟨false, false, "", ""⟩

inductive Directive where
  | continueReq
  | failReq (reason : String)
  | fulfill (body : String)
  deriving DecidableEq

structure HandlerM where
  pattern : String
  callback : HijackCtxM → HijackCtxM

structure DispatchOut where
  sends : List Directive
  errs : List String
  ran : List String
  deriving DecidableEq

def runHandlers (sendErr : Directive → Option String) (url : String) :
    List HandlerM → HijackCtxM → DispatchOut
  | [], _ => ⟨[], [], []⟩
  | h :: rest, ctx =>
    if hijackMatches h.pattern url = false then runHandlers sendErr url rest ctx
    else
      let ctx2 := h.callback ctx
      if ctx2.contReq then
        match sendErr Directive.continueReq with
        | some e => ⟨[Directive.continueReq], [e], [h.pattern]⟩
        | none => ⟨[Directive.continueReq], [], [h.pattern]⟩
      else if ctx2.skip then
        let out := runHandlers sendErr url rest ctx2
        ⟨out.sends, out.errs, h.pattern :: out.ran⟩
      else if ctx2.failReason ≠ "" then
        match sendErr (Directive.failReq ctx2.failReason) with
        | some e => ⟨[Directive.failReq ctx2.failReason], [e], [h.pattern]⟩
        | none => ⟨[Directive.failReq ctx2.failReason], [], [h.pattern]⟩
      else
        match sendErr (Directive.fulfill ctx2.body) with
        | some e => ⟨[Directive.fulfill ctx2.body], [e], [h.pattern]⟩
        | none =>
          let out := runHandlers sendErr url rest ctx2
          ⟨Directive.fulfill ctx2.body :: out.sends, out.errs, h.pattern :: out.ran⟩

/-! ## Association-list operations (model of `sync.Map` / Go maps) -/

def alookup {α β : Type} [DecidableEq α] (k : α) : List (α × β) → Option β
  | [] => none
  | (a, b) :: rest => if a = k then some b else alookup k rest

def aupsert {α β : Type} [DecidableEq α] (k : α) (v : β) : List (α × β) → List (α × β)
  | [] => [(k, v)]
  | (a, b) :: rest => if a = k then (k, v) :: rest else (a, b) :: aupsert k v rest

def aerase {α β : Type} [DecidableEq α] (k : α) : List (α × β) → List (α × β)
  | [] => []
  | (a, b) :: rest => if a = k then aerase k rest else (a, b) :: aerase k rest

/-! ## Browser domain-state cache (part_004) and Browser.Call (browser.go)

`BrowserM.states` models the browser's `states *sync.Map`, which holds both
domain-state entries (keyed by `stateKey`) and the page cache (keyed by
`TargetTargetID`); `BKey` keeps the two key types disjoint, as the distinct
Go types do.  Request payloads are opaque strings.  Every issued client call
is returned in a trace; `clientOK` is the outcome of the single underlying
`client.Call`. -/

instance {ε α : Type} [DecidableEq ε] [DecidableEq α] : DecidableEq (Except ε α)
  | Except.error e, Except.error f =>
    if h : e = f then isTrue (by rw [h])
    else isFalse (by intro hh; cases hh; exact h rfl)
  | Except.error _, Except.ok _ => isFalse (by intro hh; cases hh)
  | Except.ok _, Except.error _ => isFalse (by intro hh; cases hh)
  | Except.ok a, Except.ok b =>
    if h : a = b then isTrue (by rw [h])
    else isFalse (by intro hh; cases hh; exact h rfl)

structure RequestM where
  method : String
  payload : String
  deriving DecidableEq

structure PageModel where
  targetID : String
  sessionID : String
  deriving DecidableEq

inductive BKey where
  | state (browserContextID sessionID methodName : String)
  | target (id : String)
  deriving DecidableEq

inductive BVal where
  | params (p : Option String)
  | page (pg : PageModel)
  deriving DecidableEq

structure BrowserM where
  browserContextID : String
  states : List (BKey × BVal)
  deriving DecidableEq

structure CallRec where
  sessionID : String
  methodName : String
  params : Option String
  deriving DecidableEq

def BrowserM.key (b : BrowserM) (sessionID methodName : String) : BKey :=
  BKey.state b.browserContextID sessionID methodName

/-- `strings.Split(s, ".")` on the character list (accumulator holds the
current field reversed). -/
def splitOnDot : List Char → List Char → List (List Char)
  | acc, [] => [acc.reverse]
  | acc, c :: rest =>
    if c = '.' then acc.reverse :: splitOnDot [] rest else splitOnDot (c :: acc) rest

/-- `proto.ParseMethodName`: split on "." and take the first two parts. -/
def parseMethodName (method : String) : String × String :=
  let parts := splitOnDot [] method.toList
  (String.mk (parts.getD 0 []), String.mk (parts.getD 1 []))

/-- The complementary key deleted by `Browser.set` ("" when there is none):
the two Emulation clear/set pairs, and `domain.disable` deleting
`domain.enable`. -/
def counterpartKey (methodName : String) : String :=
  if methodName = "Emulation.clearDeviceMetricsOverride" then
    "Emulation.setDeviceMetricsOverride"
  else if methodName = "Emulation.clearGeolocationOverride" then
    "Emulation.setGeolocationOverride"
  else
    let dn := parseMethodName methodName
    if dn.2 = "disable" then dn.1 ++ ".enable" else ""

def BrowserM.set (b : BrowserM) (sessionID methodName : String)
    (params : Option String) : BrowserM :=
  let b1 : BrowserM :=
    { b with states := aupsert (b.key sessionID methodName) (BVal.params params) b.states }
  let k := counterpartKey methodName
  if k ≠ "" then { b1 with states := aerase (b1.key sessionID k) b1.states } else b1

/-- `Browser.Call`: issue the client call; on success record the state via
`Browser.set`, on failure return the error leaving the cache untouched.
Returns (new state, issued calls, success flag). -/
def BrowserM.Call (b : BrowserM) (clientOK : Bool) (sessionID methodName : String)
    (params : Option String) : BrowserM × List CallRec × Bool :=
  if clientOK then
    (b.set sessionID methodName params, [⟨sessionID, methodName, params⟩], true)
  else (b, [⟨sessionID, methodName, params⟩], false)

/-- The closure returned by EnableDomain / DisableDomain: the captured
`enabled` flag plus the request it closed over. -/
structure RestoreM where
  enabled : Bool
  sessionID : String
  method : String
  payload : String
  deriving DecidableEq

def BrowserM.EnableDomain (b : BrowserM) (clientOK : Bool) (sessionID : String)
    (req : RequestM) : (BrowserM × List CallRec) × RestoreM :=
  let enabled := (alookup (b.key sessionID req.method) b.states).isSome
  if enabled then ((b, []), ⟨true, sessionID, req.method, req.payload⟩)
  else
    let c := b.Call clientOK sessionID req.method (some req.payload)
    ((c.1, c.2.1), ⟨false, sessionID, req.method, req.payload⟩)

/-- Invoking the restore func returned by `EnableDomain` on the
then-current browser state. -/
def runEnableRestore (r : RestoreM) (clientOK : Bool) (b : BrowserM) :
    BrowserM × List CallRec :=
  if r.enabled then (b, [])
  else
    let c := b.Call clientOK r.sessionID ((parseMethodName r.method).1 ++ ".disable") none
    (c.1, c.2.1)

def BrowserM.DisableDomain (b : BrowserM) (clientOK : Bool) (sessionID : String)
    (req : RequestM) : (BrowserM × List CallRec) × RestoreM :=
  let enabled := (alookup (b.key sessionID req.method) b.states).isSome
  if enabled then
    let c := b.Call clientOK sessionID ((parseMethodName req.method).1 ++ ".disable") none
    ((c.1, c.2.1), ⟨true, sessionID, req.method, req.payload⟩)
  else ((b, []), ⟨false, sessionID, req.method, req.payload⟩)

/-- Invoking the restore func returned by `DisableDomain`: note that the Go
code re-enables with the `req` value the caller passed to `DisableDomain`
(captured in the closure), not with the cached parameters. -/
def runDisableRestore (r : RestoreM) (clientOK : Bool) (b : BrowserM) :
    BrowserM × List CallRec :=
  if r.enabled then
    let c := b.Call clientOK r.sessionID r.method (some r.payload)
    (c.1, c.2.1)
  else (b, [])

/-! ## Page cache and Browser.PageFromTarget (browser.go, part_004) -/

def BrowserM.loadCachedPage (b : BrowserM) (tid : String) : Option PageModel :=
  match alookup (BKey.target tid) b.states with
  | some (BVal.page p) => some p
  | _ => none

def BrowserM.cachePage (b : BrowserM) (p : PageModel) : BrowserM :=
  { b with states := aupsert (BKey.target p.targetID) (BVal.page p) b.states }

/-- `Browser.PageFromTarget`.  `attach` is the outcome of the
`Target.attachToTarget` round-trip (ok = the new session id).  The
`page.Emulate(b.defaultDevice)` step (whose body is outside the embedded
core) is abstracted to a single protocol call with outcome `emulateOK`; it
runs only when the default device is not clear, and like in the source it
happens after attach and before the page is cached.  `enableOK` is the
outcome of the final `Page.enable` call issued through `EnableDomain`. -/
def BrowserM.PageFromTarget (b : BrowserM) (tid : String)
    (attach : Except String String) (deviceIsClear emulateOK enableOK : Bool) :
    Except String PageModel × BrowserM × List CallRec :=
  match b.loadCachedPage tid with
  | some page => (Except.ok page, b, [])
  | none =>
    let attachRec : CallRec := ⟨"", "Target.attachToTarget", some tid⟩
    match attach with
    | Except.error e => (Except.error e, b, [attachRec])
    | Except.ok sid =>
      let page : PageModel := ⟨tid, sid⟩
      if !deviceIsClear && !emulateOK then
        (Except.error "emulate failed", b, [attachRec, ⟨sid, "emulate", none⟩])
      else
        let emuRec : List CallRec := if deviceIsClear then [] else [⟨sid, "emulate", none⟩]
        let b1 := b.cachePage page
        let en := b1.EnableDomain enableOK sid ⟨"Page.enable", ""⟩
        (Except.ok page, en.1.1, attachRec :: emuRec ++ en.1.2)

/-! ## Page JS context and helper cache (part_003)

`PageJS` models the fields `jsCtxID *proto.RuntimeRemoteObjectID` (the empty
string meaning unresolved) and
`helpers map[RuntimeRemoteObjectID]map[string]RuntimeRemoteObjectID`
(`none` modelling the nil map).  Remote round-trips are outcome parameters:
`evalWindow` for `RuntimeEvaluate{Expression: "window"}`, `resolveNode` for
the `element.Describe` + `DOMResolveNode` pair of the iframe path, and
`ctxByObj` for `jsCtxIDByObjectID`. -/

abbrev HelperMap := List (String × List (String × String))

structure PageJS where
  jsCtxID : String
  helpers : Option HelperMap
  deriving DecidableEq

def PageJS.getHelper (p : PageJS) (jsCtxID name : String) :
    Option String × PageJS :=
  let m := p.helpers.getD []
  match alookup jsCtxID m with
  | some list => (alookup name list, { p with helpers := some m })
  | none => (none, { p with helpers := some (aupsert jsCtxID [] m) })

def PageJS.setHelper (p : PageJS) (jsCtxID name fnID : String) : PageJS :=
  let m := p.helpers.getD []
  let list := (alookup jsCtxID m).getD []
  { p with helpers := some (aupsert jsCtxID (aupsert name fnID list) m) }

/-- `Page.getJSCtxID`.  Follows the source order exactly: for the top-level
window the whole helper map is set to nil after resolution; for an iframe
`delete(p.helpers, *p.jsCtxID)` runs with the CURRENT value of the context
id (which the early-return guard guarantees to be "") before the final
resolution writes the new id. -/
def PageJS.getJSCtxID (p : PageJS) (isIframe : Bool)
    (evalWindow : Except String String) (resolveNode : Except String String)
    (ctxByObj : String → Except String String) :
    Except String String × PageJS :=
  if p.jsCtxID ≠ "" then (Except.ok p.jsCtxID, p)
  else if !isIframe then
    match evalWindow with
    | Except.error e => (Except.error e, p)
    | Except.ok objID => (Except.ok objID, { jsCtxID := objID, helpers := none })
  else
    match resolveNode with
    | Except.error e => (Except.error e, p)
    | Except.ok objID =>
      let helpers2 := p.helpers.map (aerase p.jsCtxID)
      match ctxByObj objID with
      | Except.error e => (Except.error e, { jsCtxID := "", helpers := helpers2 })
      | Except.ok id => (Except.ok id, { jsCtxID := id, helpers := helpers2 })

def PageJS.unsetJSCtxID (p : PageJS) : PageJS :=
  { p with jsCtxID := "" }

/-! ## Page.Evaluate stale-context retry loop (part_003)

```
for {
    res, err = p.evaluate(opts)
    if err != nil && errors.Is(err, cdp.ErrCtxNotFound) {
        if opts.ThisObj != nil { return nil, &ErrObjectNotFound{opts.ThisObj} }
        if backoff == nil { backoff = utils.BackoffSleeper(...) } else { _ = backoff(p.ctx) }
        p.unsetJSCtxID()
        continue
    }
    return
}
```
The inner `p.evaluate` is abstracted by `oracle k`, the outcome of the k-th
attempt.  `evalLoop` is fuel-indexed: `none` means the loop has not returned
within the given number of iterations.  The trace records each attempt, each
actual backoff sleep (`backoff(p.ctx)` is invoked only when the sleeper
already exists, i.e. from the second consecutive stale failure on), and each
`unsetJSCtxID`. -/

inductive EvalOutcome where
  | ok (v : String)
  | errCtx
  | errOther (e : String)
  deriving DecidableEq

inductive EvalResult where
  | ok (v : String)
  | objNotFound (obj : String)
  | err (e : String)
  deriving DecidableEq

inductive REvent where
  | attempt (k : Nat)
  | sleep
  | unset
  deriving DecidableEq

def evalLoop (oracle : Nat → EvalOutcome) (thisObj : Option String) :
    Nat → Nat → Bool → Option (EvalResult × List REvent)
  | 0, _, _ => none
  | Nat.succ fuel, k, backoffSet =>
    match oracle k with
    | EvalOutcome.ok v => some (EvalResult.ok v, [REvent.attempt k])
    | EvalOutcome.errOther e => some (EvalResult.err e, [REvent.attempt k])
    | EvalOutcome.errCtx =>
      match thisObj with
      | some o => some (EvalResult.objNotFound o, [REvent.attempt k])
      | none =>
        match evalLoop oracle none fuel (k + 1) true with
        | none => none
        | some (r, tr) =>
          some (r, REvent.attempt k ::
            ((if backoffSet then [REvent.sleep] else []) ++ REvent.unset :: tr))

/-! ## Concrete states used by the claim theorems and witnesses -/

/-- Initial state for the C1 counterexample: an iframe page whose context
"ctxOld" has a cached helper, about to be invalidated. -/
def c1PageStart : PageJS := ⟨"ctxOld", some [("ctxOld", [("helperA", "fnOld")])]⟩

/-- A handler registered for every URL whose callback only sets `Skip`. -/
def c2SkipHandler : HandlerM := ⟨"", fun c => { c with skip := true }⟩

/-- Initial cache for the C3 counterexample: `Fetch.enable` is recorded as
enabled with parameters "P". -/
def c3Browser : BrowserM := ⟨"", [(BKey.state "" "s1" "Fetch.enable", BVal.params (some "P"))]⟩

/-- Oracle for the C5 counterexample: the first evaluation hits the stale
context, the second succeeds. -/
def c5Oracle : Nat → EvalOutcome :=
  fun k => if k = 0 then EvalOutcome.errCtx else EvalOutcome.ok "v"


/-! ## Association-list lemmas -/

theorem alookup_aupsert_self {α β : Type} [DecidableEq α] (k : α) (v : β)
    (l : List (α × β)) : alookup k (aupsert k v l) = some v := by
  induction l with
  | nil => simp [alookup, aupsert]
  | cons p rest ih =>
    by_cases h : p.1 = k
    · simp [aupsert, h, alookup]
    · simp [aupsert, h, alookup, ih]

theorem alookup_aupsert_ne {α β : Type} [DecidableEq α] (k k' : α) (v : β)
    (l : List (α × β)) (h : k' ≠ k) : alookup k (aupsert k' v l) = alookup k l := by
  induction l with
  | nil => simp [alookup, aupsert, h]
  | cons p rest ih =>
    by_cases hp : p.1 = k'
    · simp [aupsert, hp, alookup, h]
    · simp [aupsert, hp, alookup, ih]

theorem alookup_aerase_self {α β : Type} [DecidableEq α] (k : α)
    (l : List (α × β)) : alookup k (aerase k l) = none := by
  induction l with
  | nil => rfl
  | cons p rest ih =>
    obtain ⟨a, b⟩ := p
    by_cases h : a = k
    · simpa [aerase, h] using ih
    · simpa [aerase, h, alookup] using ih

theorem alookup_aerase_ne {α β : Type} [DecidableEq α] (k k' : α)
    (l : List (α × β)) (h : k' ≠ k) : alookup k (aerase k' l) = alookup k l := by
  induction l with
  | nil => rfl
  | cons p rest ih =>
    obtain ⟨a, b⟩ := p
    by_cases hp : a = k'
    · have ha : a ≠ k := by rw [hp]; exact h
      simpa [aerase, hp, alookup, ha, h] using ih
    · by_cases hk : a = k
      · simp [aerase, hp, alookup, hk, Ne.symm h]
      · simpa [aerase, hp, alookup, hk] using ih

/-! ## C1: helper-cache invalidation on context resolution -/

/-- C1 counterexample.  After `unsetJSCtxID` clears the context id, the
iframe path of `getJSCtxID` runs `delete(p.helpers, *p.jsCtxID)` with the
already-cleared (empty) id, so the entries recorded under the previous
context id "ctxOld" are NOT removed; when the new resolution yields the
same id, `getHelper` returns the stale helper id "fnOld" under the newly
resolved generation — contradicting the claim for the iframe path. -/
theorem C1_counterexample :
    ((c1PageStart.unsetJSCtxID).getJSCtxID true (Except.ok "w") (Except.ok "node1")
        (fun _ => Except.ok "ctxOld")).1 = Except.ok "ctxOld" ∧
    ((c1PageStart.unsetJSCtxID).getJSCtxID true (Except.ok "w") (Except.ok "node1")
        (fun _ => Except.ok "ctxOld")).2.helpers =
      some [("ctxOld", [("helperA", "fnOld")])] ∧
    ((((c1PageStart.unsetJSCtxID).getJSCtxID true (Except.ok "w") (Except.ok "node1")
        (fun _ => Except.ok "ctxOld")).2).getHelper "ctxOld" "helperA").1 =
      some "fnOld" := by
  decide

/-- C1 (amended): when `getJSCtxID` resolves a new context after the
previous one was cleared (`jsCtxID = ""`), the top-level-window path clears
the ENTIRE helper cache in the same critical section (so no helper id —
stale or otherwise — is cached afterwards), while the iframe path only
deletes the entries keyed by the current, already-cleared (empty) context
id: the helper entries recorded under any non-empty previous context id
survive the resolution unchanged. -/
theorem C1_helper_cache_generation (p : PageJS) (oldID objID w newID : String)
    (ctxOracle : String → Except String String)
    (hcleared : p.jsCtxID = "") (hold : oldID ≠ "") :
    ((p.getJSCtxID false (Except.ok newID) (Except.ok objID) ctxOracle).2.helpers = none ∧
      ∀ cid name,
        (((p.getJSCtxID false (Except.ok newID) (Except.ok objID) ctxOracle).2).getHelper
          cid name).1 = none) ∧
    alookup oldID
        (((p.getJSCtxID true (Except.ok w) (Except.ok objID) ctxOracle).2.helpers).getD [])
      = alookup oldID (p.helpers.getD []) := by
  constructor
  · constructor
    · simp [PageJS.getJSCtxID, hcleared]
    · intro cid name
      simp [PageJS.getJSCtxID, hcleared, PageJS.getHelper, alookup]
  · simp only [PageJS.getJSCtxID, hcleared]
    cases hres : ctxOracle objID with
    | error e =>
      cases hh : p.helpers with
      | none => simp [hres, hh]
      | some m => simp [hres, hh, alookup_aerase_ne oldID "" m (Ne.symm hold)]
    | ok id =>
      cases hh : p.helpers with
      | none => simp [hres, hh]
      | some m => simp [hres, hh, alookup_aerase_ne oldID "" m (Ne.symm hold)]

/-- C1 witness: the amended theorem applied at a concrete page state. -/
theorem C1_witness :
    (c1PageStart.unsetJSCtxID).jsCtxID = "" ∧ ("ctxOld" : String) ≠ "" ∧
    alookup "ctxOld"
        ((((c1PageStart.unsetJSCtxID).getJSCtxID true (Except.ok "w") (Except.ok "n")
            (fun _ => Except.ok "ctxNew")).2.helpers).getD [])
      = alookup "ctxOld" ((c1PageStart.unsetJSCtxID).helpers.getD []) :=
  ⟨by decide, by decide,
    (C1_helper_cache_generation (c1PageStart.unsetJSCtxID) "ctxOld" "n" "w" "ctxNew"
      (fun _ => Except.ok "ctxNew") (by decide) (by decide)).2⟩

/-! ## C2: unresolved handler chains are silently dropped -/

/-- C2 counterexample.  A paused request whose only matching handler sets
`Skip` produces no terminal directive; the router sends nothing to the
remote AND reports nothing through the `OnError` sink (the error list is
empty), contradicting the claim that an error is reported. -/
theorem C2_counterexample :
    (runHandlers (fun _ => none) "http://x" [c2SkipHandler] initialHijackCtx).sends = [] ∧
    (runHandlers (fun _ => none) "http://x" [c2SkipHandler] initialHijackCtx).errs = [] ∧
    (runHandlers (fun _ => none) "http://x" [c2SkipHandler] initialHijackCtx).ran = [""] := by
  decide

/-- C2 (amended): when no handler produces a terminal directive — every
handler either does not match the URL or leaves no continue-directive and
sets `Skip` — the router sends nothing to the remote and reports no error
through the `OnError` sink: the event is dropped silently. -/
theorem C2_unresolved_chain_silent (sendErr : Directive → Option String) (url : String)
    (handlers : List HandlerM) (ctx : HijackCtxM) (hctx : ctx.contReq = false)
    (h : ∀ hd ∈ handlers, hijackMatches hd.pattern url = false ∨
      ∀ c : HijackCtxM, c.contReq = false →
        (hd.callback c).contReq = false ∧ (hd.callback c).skip = true) :
    (runHandlers sendErr url handlers ctx).sends = [] ∧
    (runHandlers sendErr url handlers ctx).errs = [] := by
  induction handlers generalizing ctx with
  | nil => exact ⟨rfl, rfl⟩
  | cons hd rest ih =>
    have hrest : ∀ x ∈ rest, hijackMatches x.pattern url = false ∨
        ∀ c : HijackCtxM, c.contReq = false →
          (x.callback c).contReq = false ∧ (x.callback c).skip = true :=
      fun x hx => h x (List.mem_cons_of_mem _ hx)
    rcases h hd (List.mem_cons_self _ _) with hm | hcb
    · simpa [runHandlers, hm] using ih ctx hctx hrest
    · by_cases hm : hijackMatches hd.pattern url = false
      · simpa [runHandlers, hm] using ih ctx hctx hrest
      · have hspec := hcb ctx hctx
        have := ih (hd.callback ctx) hspec.1 hrest
        simp [runHandlers, hm, hspec.1, hspec.2, this.1, this.2]

/-- C2 witness: the amended theorem applied to a concrete skip-only chain. -/
theorem C2_witness :
    initialHijackCtx.contReq = false ∧
    (runHandlers (fun _ => some "boom") "http://y" [c2SkipHandler] initialHijackCtx).sends = [] ∧
    (runHandlers (fun _ => some "boom") "http://y" [c2SkipHandler] initialHijackCtx).errs = [] :=
  ⟨rfl,
    (C2_unresolved_chain_silent (fun _ => some "boom") "http://y" [c2SkipHandler]
      initialHijackCtx rfl
      (by
        intro hd hmem
        simp only [List.mem_singleton] at hmem
        subst hmem
        exact Or.inr fun c hc => ⟨hc, rfl⟩)).1,
    (C2_unresolved_chain_silent (fun _ => some "boom") "http://y" [c2SkipHandler]
      initialHijackCtx rfl
      (by
        intro hd hmem
        simp only [List.mem_singleton] at hmem
        subst hmem
        exact Or.inr fun c hc => ⟨hc, rfl⟩)).2⟩

/-! ## C3: DisableDomain and its restore -/

/-- C3 counterexample.  `Fetch.enable` was last recorded with parameters
"P"; `DisableDomain` is called with a different request payload "Q".  The
disable call is issued, but the returned restore re-enables with "Q" —
the request passed to `DisableDomain` — and not with the last recorded
parameters "P", contradicting the claim. -/
theorem C3_counterexample :
    alookup (BKey.state "" "s1" "Fetch.enable") c3Browser.states =
      some (BVal.params (some "P")) ∧
    (c3Browser.DisableDomain true "s1" ⟨"Fetch.enable", "Q"⟩).1.2 =
      [⟨"s1", "Fetch.disable", none⟩] ∧
    (runDisableRestore (c3Browser.DisableDomain true "s1" ⟨"Fetch.enable", "Q"⟩).2 true
        (c3Browser.DisableDomain true "s1" ⟨"Fetch.enable", "Q"⟩).1.1).2 =
      [⟨"s1", "Fetch.enable", some "Q"⟩] ∧
    (some "Q" : Option String) ≠ some "P" := by
  decide

/-- C3 (amended): if the method is recorded as enabled, `DisableDomain`
issues the disable call and the returned restore, when invoked, re-enables
the domain with the request value that was passed to `DisableDomain`
(NOT with the last recorded parameters); if the method was not enabled,
neither the disable nor the restore issues any call. -/
theorem C3_disable_domain (b : BrowserM) (clientOK restoreOK : Bool)
    (sessionID : String) (req : RequestM) (b2 : BrowserM) :
    ((alookup (b.key sessionID req.method) b.states).isSome = true →
      (b.DisableDomain clientOK sessionID req).1.2 =
        [⟨sessionID, (parseMethodName req.method).1 ++ ".disable", none⟩] ∧
      (runDisableRestore (b.DisableDomain clientOK sessionID req).2 restoreOK b2).2 =
        [⟨sessionID, req.method, some req.payload⟩]) ∧
    ((alookup (b.key sessionID req.method) b.states).isSome = false →
      (b.DisableDomain clientOK sessionID req).1 = (b, []) ∧
      runDisableRestore (b.DisableDomain clientOK sessionID req).2 restoreOK b2 = (b2, [])) := by
  constructor
  · intro h
    cases clientOK <;> cases restoreOK <;>
      simp [BrowserM.DisableDomain, BrowserM.Call, runDisableRestore, h]
  · intro h
    cases clientOK <;> cases restoreOK <;>
      simp [BrowserM.DisableDomain, BrowserM.Call, runDisableRestore, h]

/-- C3 witness: the amended theorem applied at concrete states covering
both the enabled and the not-enabled branch. -/
theorem C3_witness :
    ((alookup (c3Browser.key "s1" "Fetch.enable") c3Browser.states).isSome = true ∧
      (c3Browser.DisableDomain true "s1" ⟨"Fetch.enable", "Q"⟩).1.2 =
        [⟨"s1", (parseMethodName "Fetch.enable").1 ++ ".disable", none⟩] ∧
      (runDisableRestore (c3Browser.DisableDomain true "s1" ⟨"Fetch.enable", "Q"⟩).2 true
          c3Browser).2 = [⟨"s1", "Fetch.enable", some "Q"⟩]) ∧
    ((alookup (c3Browser.key "s2" "Net.enable") c3Browser.states).isSome = false ∧
      (c3Browser.DisableDomain true "s2" ⟨"Net.enable", "R"⟩).1 = (c3Browser, []) ∧
      runDisableRestore (c3Browser.DisableDomain true "s2" ⟨"Net.enable", "R"⟩).2 true
          c3Browser = (c3Browser, [])) :=
  ⟨⟨by decide,
    (C3_disable_domain c3Browser true true "s1" ⟨"Fetch.enable", "Q"⟩ c3Browser).1 (by decide)⟩,
   ⟨by decide,
    (C3_disable_domain c3Browser true true "s2" ⟨"Net.enable", "R"⟩ c3Browser).2 (by decide)⟩⟩

/-! ## C4: EnableDomain nesting -/

theorem set_key (bb : BrowserM) (sid m : String) (p : Option String) :
    (bb.set sid m p).key = bb.key := by
  simp only [BrowserM.set]
  split <;> rfl

theorem set_states (bb : BrowserM) (sid m : String) (p : Option String) :
    (bb.set sid m p).states =
      if counterpartKey m ≠ "" then
        aerase (bb.key sid (counterpartKey m))
          (aupsert (bb.key sid m) (BVal.params p) bb.states)
      else aupsert (bb.key sid m) (BVal.params p) bb.states := by
  simp only [BrowserM.set]
  split <;> rfl

theorem enable_on (bb : BrowserM) (sid : String) (req : RequestM)
    (hh : (alookup (bb.key sid req.method) bb.states).isSome = true) :
    bb.EnableDomain true sid req = ((bb, []), ⟨true, sid, req.method, req.payload⟩) := by
  simp [BrowserM.EnableDomain, hh]

theorem enable_off (bb : BrowserM) (sid : String) (req : RequestM)
    (hh : alookup (bb.key sid req.method) bb.states = none) :
    bb.EnableDomain true sid req =
      (((bb.Call true sid req.method (some req.payload)).1,
        (bb.Call true sid req.method (some req.payload)).2.1),
        (⟨false, sid, req.method, req.payload⟩ : RestoreM)) := by
  simp [BrowserM.EnableDomain, hh]

/-- C4: enabling a not-yet-enabled domain twice and restoring in reverse
order issues the enable call exactly once (at the first EnableDomain) and
the disable call exactly once (at the first EnableDomain's restore, run
last); the inner EnableDomain and its restore issue no calls, so invoking
only the inner restore leaves the domain enabled. -/
theorem C4_enable_nesting (b : BrowserM) (sid : String) (req : RequestM) (d : String)
    (h0 : alookup (b.key sid req.method) b.states = none)
    (hpm : parseMethodName req.method = (d, "enable"))
    (hpd : parseMethodName (d ++ ".disable") = (d, "disable"))
    (hme : req.method = d ++ ".enable") :
    (b.EnableDomain true sid req).1.2 = [⟨sid, req.method, some req.payload⟩] ∧
    ((b.EnableDomain true sid req).1.1.EnableDomain true sid req).1.2 = [] ∧
    (runEnableRestore ((b.EnableDomain true sid req).1.1.EnableDomain true sid req).2 true
        ((b.EnableDomain true sid req).1.1.EnableDomain true sid req).1.1).2 = [] ∧
    (runEnableRestore ((b.EnableDomain true sid req).1.1.EnableDomain true sid req).2 true
        ((b.EnableDomain true sid req).1.1.EnableDomain true sid req).1.1).1 =
      (b.EnableDomain true sid req).1.1 ∧
    alookup (b.key sid req.method)
        (((b.EnableDomain true sid req).1.1.EnableDomain true sid req).1.1).states =
      some (BVal.params (some req.payload)) ∧
    (runEnableRestore (b.EnableDomain true sid req).2 true
        (runEnableRestore ((b.EnableDomain true sid req).1.1.EnableDomain true sid req).2 true
          ((b.EnableDomain true sid req).1.1.EnableDomain true sid req).1.1).1).2 =
      [⟨sid, d ++ ".disable", none⟩] ∧
    alookup (b.key sid req.method)
        (runEnableRestore (b.EnableDomain true sid req).2 true
          (runEnableRestore ((b.EnableDomain true sid req).1.1.EnableDomain true sid req).2 true
            ((b.EnableDomain true sid req).1.1.EnableDomain true sid req).1.1).1).1.states =
      none := by
  have hEmu1 : req.method ≠ "Emulation.clearDeviceMetricsOverride" := by
    intro hc
    rw [hc] at hpm
    rw [show parseMethodName "Emulation.clearDeviceMetricsOverride" =
        ("Emulation", "clearDeviceMetricsOverride") from by decide] at hpm
    exact absurd ((Prod.mk.injEq _ _ _ _).mp hpm).2 (by decide)
  have hEmu2 : req.method ≠ "Emulation.clearGeolocationOverride" := by
    intro hc
    rw [hc] at hpm
    rw [show parseMethodName "Emulation.clearGeolocationOverride" =
        ("Emulation", "clearGeolocationOverride") from by decide] at hpm
    exact absurd ((Prod.mk.injEq _ _ _ _).mp hpm).2 (by decide)
  have hne : req.method ≠ "" := by
    intro hc
    rw [hc] at hpm
    rw [show parseMethodName "" = ("", "") from by decide] at hpm
    exact absurd ((Prod.mk.injEq _ _ _ _).mp hpm).2 (by decide)
  have hEmuD1 : d ++ ".disable" ≠ "Emulation.clearDeviceMetricsOverride" := by
    intro hc
    rw [hc] at hpd
    rw [show parseMethodName "Emulation.clearDeviceMetricsOverride" =
        ("Emulation", "clearDeviceMetricsOverride") from by decide] at hpd
    exact absurd ((Prod.mk.injEq _ _ _ _).mp hpd).2 (by decide)
  have hEmuD2 : d ++ ".disable" ≠ "Emulation.clearGeolocationOverride" := by
    intro hc
    rw [hc] at hpd
    rw [show parseMethodName "Emulation.clearGeolocationOverride" =
        ("Emulation", "clearGeolocationOverride") from by decide] at hpd
    exact absurd ((Prod.mk.injEq _ _ _ _).mp hpd).2 (by decide)
  have hck : counterpartKey req.method = "" := by
    simp [counterpartKey, hEmu1, hEmu2, hpm]
  have hckd : counterpartKey (d ++ ".disable") = d ++ ".enable" := by
    simp [counterpartKey, hEmuD1, hEmuD2, hpd]
  have hckdne : counterpartKey (d ++ ".disable") ≠ "" := by
    rw [hckd, ← hme]
    exact hne
  have hb1states : (b.EnableDomain true sid req).1.1.states =
      aupsert (b.key sid req.method) (BVal.params (some req.payload)) b.states := by
    rw [enable_off b sid req h0]
    show (b.set sid req.method (some req.payload)).states = _
    rw [set_states]
    simp [hck]
  have hb1key : (b.EnableDomain true sid req).1.1.key = b.key := by
    rw [enable_off b sid req h0]
    exact set_key b sid req.method (some req.payload)
  have hlookb1 : alookup ((b.EnableDomain true sid req).1.1.key sid req.method)
      ((b.EnableDomain true sid req).1.1).states = some (BVal.params (some req.payload)) := by
    rw [hb1key, hb1states]
    exact alookup_aupsert_self _ _ _
  have he2 := enable_on ((b.EnableDomain true sid req).1.1) sid req (by rw [hlookb1]; rfl)
  have htr1 : (b.EnableDomain true sid req).1.2 = [⟨sid, req.method, some req.payload⟩] := by
    rw [enable_off b sid req h0]
    rfl
  have hr1flag : (b.EnableDomain true sid req).2 =
      (⟨false, sid, req.method, req.payload⟩ : RestoreM) := by
    rw [enable_off b sid req h0]
  have hrun1st : (runEnableRestore (b.EnableDomain true sid req).2 true
      ((b.EnableDomain true sid req).1.1)) =
      ((((b.EnableDomain true sid req).1.1).Call true sid
          ((parseMethodName req.method).1 ++ ".disable") none).1,
        [⟨sid, (parseMethodName req.method).1 ++ ".disable", none⟩]) := by
    rw [hr1flag]
    rfl
  refine ⟨htr1, by rw [he2], by rw [he2]; rfl, by rw [he2]; rfl, ?_, ?_, ?_⟩
  · rw [he2]
    rw [hb1states]
    exact alookup_aupsert_self _ _ _
  · rw [he2]
    show (runEnableRestore (b.EnableDomain true sid req).2 true
      ((b.EnableDomain true sid req).1.1)).2 = _
    rw [hrun1st, hpm]
  · rw [he2]
    show alookup (b.key sid req.method)
        (runEnableRestore (b.EnableDomain true sid req).2 true
          ((b.EnableDomain true sid req).1.1)).1.states = none
    rw [hrun1st]
    show alookup (b.key sid req.method)
        (((b.EnableDomain true sid req).1.1).set sid
          ((parseMethodName req.method).1 ++ ".disable") none).states = none
    rw [set_states, hpm]
    rw [if_pos hckdne, hckd, hb1key, ← hme]
    exact alookup_aerase_self _ _

/-- C4 witness: the nesting theorem applied at a concrete browser state. -/
theorem C4_witness :
    alookup ((⟨"", []⟩ : BrowserM).key "s1" "Fetch.enable") (⟨"", []⟩ : BrowserM).states = none ∧
    ((⟨"", []⟩ : BrowserM).EnableDomain true "s1" ⟨"Fetch.enable", "PF"⟩).1.2 =
      [⟨"s1", "Fetch.enable", some "PF"⟩] :=
  ⟨by decide,
    (C4_enable_nesting ⟨"", []⟩ "s1" ⟨"Fetch.enable", "PF"⟩ "Fetch"
      (by decide) (by decide) (by decide) rfl).1⟩

/-! ## C10: Browser.Call updates the state cache atomically with success -/

/-- C10: Browser.Call records the (browserContextID, session, method) entry
and deletes the complementary entry exactly when the underlying client call
succeeds; when the client call fails the state cache (indeed the whole
browser value) is unchanged. -/
theorem C10_call_state (b : BrowserM) (clientOK : Bool) (sid method : String)
    (params : Option String) (hcp : counterpartKey method ≠ method) :
    (clientOK = false → (b.Call clientOK sid method params).1 = b ∧
      (b.Call clientOK sid method params).2.2 = false) ∧
    (clientOK = true →
      alookup (b.key sid method) (b.Call clientOK sid method params).1.states =
        some (BVal.params params) ∧
      (counterpartKey method ≠ "" →
        alookup (b.key sid (counterpartKey method))
          (b.Call clientOK sid method params).1.states = none)) := by
  have hkey : b.key sid (counterpartKey method) ≠ b.key sid method := by
    intro hcontra
    injection hcontra with h1 h2 h3
    exact hcp h3
  constructor
  · intro h
    rw [h]
    exact ⟨rfl, rfl⟩
  · intro h
    rw [h]
    have hcall : (b.Call true sid method params).1 = b.set sid method params := rfl
    rw [hcall, set_states]
    by_cases hk : counterpartKey method = ""
    · rw [if_neg (not_not_intro hk)]
      exact ⟨alookup_aupsert_self _ _ _, fun hkk => absurd hk hkk⟩
    · rw [if_pos hk]
      constructor
      · rw [alookup_aerase_ne _ _ _ hkey]
        exact alookup_aupsert_self _ _ _
      · intro _
        exact alookup_aerase_self _ _

/-- C10 witness: both outcomes of the client call at concrete inputs. -/
theorem C10_witness :
    (counterpartKey "Net.disable" ≠ "Net.disable" ∧
      alookup ((⟨"", []⟩ : BrowserM).key "s1" "Net.disable")
        ((⟨"", []⟩ : BrowserM).Call true "s1" "Net.disable" none).1.states =
        some (BVal.params none)) ∧
    ((⟨"", [(BKey.state "" "s1" "Net.enable", BVal.params (some "P"))]⟩ : BrowserM).Call
        false "s1" "Net.disable" none).1 =
      ⟨"", [(BKey.state "" "s1" "Net.enable", BVal.params (some "P"))]⟩ :=
  ⟨⟨by decide,
    ((C10_call_state ⟨"", []⟩ true "s1" "Net.disable" none (by decide)).2 rfl).1⟩,
    ((C10_call_state ⟨"", [(BKey.state "" "s1" "Net.enable", BVal.params (some "P"))]⟩
      false "s1" "Net.disable" none (by decide)).1 rfl).1⟩

/-! ## C8: PageFromTarget idempotence and attach failure -/

/-- C8: PageFromTarget is idempotent per target — a successful call caches
the new Page under its target id; when a Page is cached for the target id,
the call returns that same cached Page value, issues no protocol call at
all (in particular no attach), and leaves the browser unchanged; when
nothing is cached and the remote attach call fails, the call returns the
attach error, only the attach call was issued, and the target is still not
cached afterwards. -/
theorem C8_page_from_target (b : BrowserM) (tid : String)
    (att : Except String String) (dc emuOK enOK : Bool) :
    (∀ p, b.loadCachedPage tid = some p →
      b.PageFromTarget tid att dc emuOK enOK = (Except.ok p, b, [])) ∧
    (∀ e, b.loadCachedPage tid = none → att = Except.error e →
      b.PageFromTarget tid att dc emuOK enOK =
        (Except.error e, b, [⟨"", "Target.attachToTarget", some tid⟩]) ∧
      (b.PageFromTarget tid att dc emuOK enOK).2.1.loadCachedPage tid = none) ∧
    (∀ sid, b.loadCachedPage tid = none → att = Except.ok sid →
      (dc = true ∨ emuOK = true) →
      (b.PageFromTarget tid att dc emuOK enOK).1 = Except.ok ⟨tid, sid⟩ ∧
      (b.PageFromTarget tid att dc emuOK enOK).2.1.loadCachedPage tid =
        some ⟨tid, sid⟩) := by
  have hcache : ∀ (bb : BrowserM) (sid : String),
      ((bb.cachePage ⟨tid, sid⟩).EnableDomain enOK sid ⟨"Page.enable", ""⟩).1.1.loadCachedPage
        tid = some ⟨tid, sid⟩ := by
    intro bb sid
    have hb1 : (bb.cachePage ⟨tid, sid⟩).loadCachedPage tid = some ⟨tid, sid⟩ := by
      simp [BrowserM.cachePage, BrowserM.loadCachedPage, alookup_aupsert_self]
    by_cases hen : (alookup ((bb.cachePage ⟨tid, sid⟩).key sid "Page.enable")
        (bb.cachePage ⟨tid, sid⟩).states).isSome = true
    · simp [BrowserM.EnableDomain, hen, hb1]
    · cases enOK with
      | false => simp [BrowserM.EnableDomain, hen, BrowserM.Call, hb1]
      | true =>
        simp only [BrowserM.EnableDomain, hen, if_false, Bool.false_eq_true]
        show ((bb.cachePage ⟨tid, sid⟩).set sid "Page.enable" (some "")).loadCachedPage tid =
          some ⟨tid, sid⟩
        have hck : counterpartKey "Page.enable" = "" := by decide
        unfold BrowserM.loadCachedPage
        rw [set_states, if_neg (not_not_intro hck)]
        rw [alookup_aupsert_ne _ _ _ _ (by intro hcontra; cases hcontra)]
        have := hb1
        unfold BrowserM.loadCachedPage at this
        exact this
  refine ⟨?_, ?_, ?_⟩
  · intro p hp
    simp [BrowserM.PageFromTarget, hp]
  · intro e hmiss hatt
    have hres : b.PageFromTarget tid att dc emuOK enOK =
        (Except.error e, b, [⟨"", "Target.attachToTarget", some tid⟩]) := by
      simp [BrowserM.PageFromTarget, hmiss, hatt]
    exact ⟨hres, by rw [hres]; exact hmiss⟩
  · intro sid hmiss hatt hdev
    have hguard : (!dc && !emuOK) = false := by
      rcases hdev with h | h <;> simp [h]
    simp [BrowserM.PageFromTarget, hmiss, hatt, hguard, hcache b sid]

/-- C8 witness: all three branches at concrete inputs — a browser that has
the page cached, an empty browser whose attach call fails, and an empty
browser whose attach call succeeds. -/
theorem C8_witness :
    ((⟨"", [(BKey.target "t1", BVal.page ⟨"t1", "sOld"⟩)]⟩ : BrowserM).loadCachedPage "t1" =
      some ⟨"t1", "sOld"⟩ ∧
     (⟨"", [(BKey.target "t1", BVal.page ⟨"t1", "sOld"⟩)]⟩ : BrowserM).PageFromTarget "t1"
        (Except.ok "sNew") false true true =
      (Except.ok ⟨"t1", "sOld"⟩, ⟨"", [(BKey.target "t1", BVal.page ⟨"t1", "sOld"⟩)]⟩, [])) ∧
    ((⟨"", []⟩ : BrowserM).loadCachedPage "t2" = none ∧
     (⟨"", []⟩ : BrowserM).PageFromTarget "t2" (Except.error "attach fail") true true true =
      (Except.error "attach fail", ⟨"", []⟩, [⟨"", "Target.attachToTarget", some "t2"⟩])) ∧
    (((⟨"", []⟩ : BrowserM).PageFromTarget "t3" (Except.ok "s3") true true true).1 =
       Except.ok ⟨"t3", "s3"⟩ ∧
     ((⟨"", []⟩ : BrowserM).PageFromTarget "t3"
        (Except.ok "s3") true true true).2.1.loadCachedPage "t3" = some ⟨"t3", "s3"⟩) :=
  ⟨⟨by decide,
    (C8_page_from_target ⟨"", [(BKey.target "t1", BVal.page ⟨"t1", "sOld"⟩)]⟩ "t1"
      (Except.ok "sNew") false true true).1 ⟨"t1", "sOld"⟩ (by decide)⟩,
   ⟨by decide,
    ((C8_page_from_target ⟨"", []⟩ "t2" (Except.error "attach fail") true true true).2.1
      "attach fail" (by decide) rfl).1⟩,
   (C8_page_from_target ⟨"", []⟩ "t3" (Except.ok "s3") true true true).2.2
     "s3" (by decide) rfl (Or.inl rfl)⟩

/-! ## C5 and C6: the Page.Evaluate stale-context retry loop -/

/-- C5 counterexample.  With ThisObj nil, a first stale failure and an
immediately succeeding second attempt, the loop clears the context id and
retries — but the trace contains NO backoff sleep: on the first stale
failure the sleeper is merely created (`backoff == nil` branch), so the
retry happens without any wait, contradicting the claim that Evaluate
"waits a bounded backoff delay" before the retry. -/
theorem C5_counterexample :
    evalLoop c5Oracle none 2 0 false =
      some (EvalResult.ok "v", [REvent.attempt 0, REvent.unset, REvent.attempt 1]) ∧
    REvent.sleep ∉ [REvent.attempt 0, REvent.unset, REvent.attempt 1] := by
  decide

/-- C5 (amended): when the inner evaluation fails with the
context-not-found error and ThisObj is a non-nil remote object handle,
Evaluate returns ObjectNotFound immediately with no retry; any other
failure is returned unchanged with no retry; when ThisObj is nil, Evaluate
clears the cached execution-context id and retries the whole evaluation —
without any wait before the first retry (the backoff sleeper is only
created there), and with a backoff sleep before each subsequent
consecutive retry. -/
theorem C5_evaluate_staleness (oracle : Nat → EvalOutcome) (v e : String) (fuel : Nat) :
    (oracle 0 = EvalOutcome.errCtx → ∀ obj : String, 1 ≤ fuel →
      evalLoop oracle (some obj) fuel 0 false =
        some (EvalResult.objNotFound obj, [REvent.attempt 0])) ∧
    (oracle 0 = EvalOutcome.errOther e → 1 ≤ fuel →
      evalLoop oracle none fuel 0 false = some (EvalResult.err e, [REvent.attempt 0])) ∧
    (oracle 0 = EvalOutcome.errCtx → oracle 1 = EvalOutcome.ok v → 2 ≤ fuel →
      evalLoop oracle none fuel 0 false =
        some (EvalResult.ok v, [REvent.attempt 0, REvent.unset, REvent.attempt 1])) ∧
    (oracle 0 = EvalOutcome.errCtx → oracle 1 = EvalOutcome.errCtx →
      oracle 2 = EvalOutcome.ok v → 3 ≤ fuel →
      evalLoop oracle none fuel 0 false =
        some (EvalResult.ok v, [REvent.attempt 0, REvent.unset, REvent.attempt 1,
          REvent.sleep, REvent.unset, REvent.attempt 2])) := by
  refine ⟨?_, ?_, ?_, ?_⟩
  · intro h0 obj hf
    match fuel, hf with
    | Nat.succ f, _ => simp [evalLoop, h0]
  · intro h0 hf
    match fuel, hf with
    | Nat.succ f, _ => simp [evalLoop, h0]
  · intro h0 h1 hf
    match fuel, hf with
    | Nat.succ (Nat.succ f), _ => simp [evalLoop, h0, h1]
  · intro h0 h1 h2 hf
    match fuel, hf with
    | Nat.succ (Nat.succ (Nat.succ f)), _ => simp [evalLoop, h0, h1, h2]

/-- C5 witness: the amended theorem applied at the concrete two-attempt
oracle, plus the ThisObj and other-error branches. -/
theorem C5_witness :
    (c5Oracle 0 = EvalOutcome.errCtx ∧ 2 ≤ 2 ∧
      evalLoop c5Oracle none 2 0 false =
        some (EvalResult.ok "v", [REvent.attempt 0, REvent.unset, REvent.attempt 1])) ∧
    evalLoop c5Oracle (some "obj1") 1 0 false =
      some (EvalResult.objNotFound "obj1", [REvent.attempt 0]) ∧
    evalLoop (fun _ => EvalOutcome.errOther "boom") none 1 0 false =
      some (EvalResult.err "boom", [REvent.attempt 0]) :=
  ⟨⟨by decide, by decide,
    (C5_evaluate_staleness c5Oracle "v" "" 2).2.2.1 (by decide) (by decide) (by decide)⟩,
   (C5_evaluate_staleness c5Oracle "v" "" 1).1 (by decide) "obj1" (by decide),
   (C5_evaluate_staleness (fun _ => EvalOutcome.errOther "boom") "v" "boom" 1).2.1 rfl
     (by decide)⟩

/-- Helper for C6: under an oracle that always reports the stale-context
error (and ThisObj nil), the loop never returns within any amount of
fuel. -/
theorem evalLoop_stale_forever (oracle : Nat → EvalOutcome)
    (h : ∀ k, oracle k = EvalOutcome.errCtx) :
    ∀ (n k : Nat) (backoffSet : Bool), evalLoop oracle none n k backoffSet = none := by
  intro n
  induction n with
  | zero => intro k b; rfl
  | succ n ih =>
    intro k b
    simp [evalLoop, h k, ih (k + 1) true]

/-- C6 counterexample.  For the concrete oracle that fails every attempt
with the context-not-found error, there is NO number of iterations after
which the loop has returned: the retry is unbounded, contradicting the
claim that only a bounded number of retry attempts is performed before an
error is returned. -/
theorem C6_counterexample :
    ¬ ∃ (n : Nat) (r : EvalResult × List REvent),
      evalLoop (fun _ => EvalOutcome.errCtx) none n 0 false = some r := by
  intro hex
  obtain ⟨n, r, hr⟩ := hex
  rw [evalLoop_stale_forever (fun _ => EvalOutcome.errCtx) (fun _ => rfl) n 0 false] at hr
  cases hr

/-- C6 (amended): when the inner evaluation keeps failing with the
context-not-found error (ThisObj nil, context never cancelled), the
Evaluate retry loop never returns: for every iteration bound the loop is
still running, i.e. the number of retry attempts is unbounded (only the
individual backoff sleep interval is bounded, not the retry count). -/
theorem C6_unbounded_retry (oracle : Nat → EvalOutcome)
    (h : ∀ k, oracle k = EvalOutcome.errCtx) (n k : Nat) (backoffSet : Bool) :
    evalLoop oracle none n k backoffSet = none :=
  evalLoop_stale_forever oracle h n k backoffSet

/-- C6 witness: the amended theorem at the concrete always-stale oracle. -/
theorem C6_witness :
    (∀ k : Nat, (fun _ : Nat => EvalOutcome.errCtx) k = EvalOutcome.errCtx) ∧
    evalLoop (fun _ : Nat => EvalOutcome.errCtx) none 7 0 false = none :=
  ⟨fun _ => rfl, C6_unbounded_retry (fun _ => EvalOutcome.errCtx) (fun _ => rfl) 7 0 false⟩

/-! ## C9: the empty pattern matches everything -/

theorem initsOf_any_eps (t : List Char) :
    (initsOf t).any (fun u => Reg.eps.fullMatch u) = true := by
  cases t with
  | nil => rfl
  | cons c rest => simp [initsOf, Reg.fullMatch, Reg.nullable]

/-- Whenever one handler is registered and its pattern matches the URL, the
dispatch invokes that handler (whatever its callback and the protocol-call
outcomes do). -/
theorem runHandlers_single_ran (sendErr : Directive → Option String) (url : String)
    (h : HandlerM) (ctx : HijackCtxM) (hm : hijackMatches h.pattern url = true) :
    (runHandlers sendErr url [h] ctx).ran = [h.pattern] := by
  unfold runHandlers
  simp only [hm]
  split
  · simp_all
  · split
    · split <;> rfl
    · split
      · rfl
      · split
        · split <;> rfl
        · split <;> rfl

/-- C9: PatternToReg maps the empty pattern to the empty regular
expression; the empty regex matches every string (Go's unanchored search
trivially succeeds), so a hijack handler registered with pattern "" is
invoked for every paused request URL. -/
theorem C9_empty_pattern :
    PatternToReg "" = "" ∧
    (∀ url : String, hijackMatches "" url = true) ∧
    (∀ (cb : HijackCtxM → HijackCtxM) (ctx : HijackCtxM)
      (sendErr : Directive → Option String) (url : String),
      (runHandlers sendErr url [⟨"", cb⟩] ctx).ran = [""]) := by
  have hmatch : ∀ url : String, hijackMatches "" url = true := by
    intro url
    show (goRegexpMatch (PatternToReg "") url).getD false = true
    rw [show PatternToReg "" = "" from rfl]
    show (some ((⟨false, Reg.eps, false⟩ : GoReg).matchString url)).getD false = true
    show (⟨false, Reg.eps, false⟩ : GoReg).matchString url = true
    show (tailsOf url.toList).any
      (fun t => (initsOf t).any fun u => Reg.eps.fullMatch u) = true
    cases hl : url.toList with
    | nil => rfl
    | cons c rest =>
      simp only [tailsOf, List.any_cons, initsOf_any_eps, Bool.true_or]
  refine ⟨rfl, hmatch, ?_⟩
  intro cb ctx sendErr url
  exact runHandlers_single_ran sendErr url ⟨"", cb⟩ ctx (hmatch url)

/-! ## C7: PatternToReg glob-to-regex translation -/

theorem noConsecutive_tail (c a : Char) (l : List Char)
    (h : noConsecutive c (a :: l) = true) : noConsecutive c l = true := by
  simp [noConsecutive] at h
  exact h.2

theorem noConsecutive_head (c a b : Char) (l : List Char)
    (h : noConsecutive c (a :: b :: l) = true) (ha : a = c) : b ≠ c := by
  simp [noConsecutive, headIs, ha] at h
  intro hb
  exact absurd hb h.1

theorem mem_tail_of_not_mem {x a : Char} {l : List Char} (h : x ∉ a :: l) : x ∉ l :=
  fun hm => h (List.mem_cons_of_mem a hm)

theorem ne_of_not_mem {x a : Char} {l : List Char} (h : x ∉ a :: l) : a ≠ x :=
  fun he => h (he ▸ List.mem_cons_self a l)

theorem replStar_eq_naive :
    ∀ (n : Nat) (l : List Char), l.length ≤ n → '\\' ∉ l → noConsecutive '*' l = true →
      ∀ c : Char, c ≠ '\\' → replStar (c :: l) = c :: starNaive l := by
  intro n
  induction n with
  | zero =>
    intro l hl hbs hnc c hc
    have h0 : l = [] := List.eq_nil_of_length_eq_zero (Nat.le_zero.mp hl)
    subst h0
    rfl
  | succ n ih =>
    intro l hl hbs hnc c hc
    cases l with
    | nil => rfl
    | cons a rest =>
      by_cases ha : a = '*'
      · subst ha
        have hstep : replStar (c :: '*' :: rest) = c :: '.' :: '*' :: replStar rest := by
          simp [replStar, hc]
        rw [hstep]
        have hrest : replStar rest = starNaive rest := by
          cases rest with
          | nil => rfl
          | cons b rest2 =>
            have hb : b ≠ '*' := noConsecutive_head '*' '*' b rest2 hnc rfl
            have hbbs : b ≠ '\\' := ne_of_not_mem (mem_tail_of_not_mem hbs)
            have hlen : rest2.length ≤ n := by
              simp at hl
              omega
            have hbs2 : '\\' ∉ rest2 := mem_tail_of_not_mem (mem_tail_of_not_mem hbs)
            have hnc2 : noConsecutive '*' rest2 :=
              noConsecutive_tail '*' b rest2 (noConsecutive_tail '*' '*' (b :: rest2) hnc)
            rw [ih rest2 hlen hbs2 hnc2 b hbbs]
            simp [starNaive, hb]
        rw [hrest]
        simp [starNaive]
      · have hstep : replStar (c :: a :: rest) = c :: replStar (a :: rest) := by
          simp [replStar, ha]
        rw [hstep]
        have habs : a ≠ '\\' := ne_of_not_mem hbs
        have hlen : rest.length ≤ n := by
          simp at hl
          omega
        rw [ih rest hlen (mem_tail_of_not_mem hbs) (noConsecutive_tail '*' a rest hnc) a habs]
        simp [starNaive, ha]

theorem replQues_eq_naive :
    ∀ (n : Nat) (l : List Char), l.length ≤ n → '\\' ∉ l → noConsecutive '?' l = true →
      ∀ c : Char, c ≠ '\\' → replQues (c :: l) = c :: quesNaive l := by
  intro n
  induction n with
  | zero =>
    intro l hl hbs hnc c hc
    have h0 : l = [] := List.eq_nil_of_length_eq_zero (Nat.le_zero.mp hl)
    subst h0
    rfl
  | succ n ih =>
    intro l hl hbs hnc c hc
    cases l with
    | nil => rfl
    | cons a rest =>
      by_cases ha : a = '?'
      · subst ha
        have hstep : replQues (c :: '?' :: rest) = c :: '.' :: replQues rest := by
          simp [replQues, hc]
        rw [hstep]
        have hrest : replQues rest = quesNaive rest := by
          cases rest with
          | nil => rfl
          | cons b rest2 =>
            have hb : b ≠ '?' := noConsecutive_head '?' '?' b rest2 hnc rfl
            have hbbs : b ≠ '\\' := ne_of_not_mem (mem_tail_of_not_mem hbs)
            have hlen : rest2.length ≤ n := by
              simp at hl
              omega
            have hbs2 : '\\' ∉ rest2 := mem_tail_of_not_mem (mem_tail_of_not_mem hbs)
            have hnc2 : noConsecutive '?' rest2 :=
              noConsecutive_tail '?' b rest2 (noConsecutive_tail '?' '?' (b :: rest2) hnc)
            rw [ih rest2 hlen hbs2 hnc2 b hbbs]
            simp [quesNaive, hb]
        rw [hrest]
        simp [quesNaive]
      · have hstep : replQues (c :: a :: rest) = c :: replQues (a :: rest) := by
          simp [replQues, ha]
        rw [hstep]
        have habs : a ≠ '\\' := ne_of_not_mem hbs
        have hlen : rest.length ≤ n := by
          simp at hl
          omega
        rw [ih rest hlen (mem_tail_of_not_mem hbs) (noConsecutive_tail '?' a rest hnc) a habs]
        simp [quesNaive, ha]


theorem starNaive_no_bs (l : List Char) (h : '\\' ∉ l) : '\\' ∉ starNaive l := by
  induction l with
  | nil => simp [starNaive]
  | cons a rest ih =>
    have ha : a ≠ '\\' := ne_of_not_mem h
    have hrest := ih (mem_tail_of_not_mem h)
    by_cases hs : a = '*'
    · simp [starNaive, hs, hrest]
    · simp [starNaive, hs, hrest]
      exact fun he => ha he.symm

theorem headIs_ques_starNaive (l : List Char) :
    headIs '?' (starNaive l) = headIs '?' l := by
  cases l with
  | nil => rfl
  | cons a rest =>
    by_cases hs : a = '*'
    · simp [starNaive, hs, headIs]
    · simp [starNaive, hs, headIs]

theorem noConsecutive_ques_starNaive (l : List Char)
    (h : noConsecutive '?' l = true) : noConsecutive '?' (starNaive l) = true := by
  induction l with
  | nil => rfl
  | cons a rest ih =>
    have hrest := ih (noConsecutive_tail '?' a rest h)
    by_cases hs : a = '*'
    · simp [starNaive, hs, noConsecutive, headIs, hrest]
    · by_cases hq : a = '?'
      · have hhead : headIs '?' rest = false := by
          simp [noConsecutive, hq] at h
          cases hh : headIs '?' rest
          · rfl
          · exact absurd hh (by simp [h.1])
        simp [starNaive, hs, noConsecutive, hq, headIs_ques_starNaive, hhead, hrest]
      · simp [starNaive, hs, noConsecutive, hq, hrest]

theorem quesNaive_starNaive (l : List Char) :
    quesNaive (starNaive l) = specGlobTranslate l := by
  induction l with
  | nil => rfl
  | cons a rest ih =>
    by_cases hs : a = '*'
    · simp [starNaive, hs, quesNaive, specGlobTranslate, ih]
    · by_cases hq : a = '?'
      · simp [starNaive, hs, hq, quesNaive, specGlobTranslate, ih]
      · simp [starNaive, hs, hq, quesNaive, specGlobTranslate, ih]

theorem noSpace_cons {a : Char} {l : List Char} (h : noSpaceChar (a :: l) = true) :
    isGoSpace a = false ∧ noSpaceChar l = true := by
  simpa [noSpaceChar, List.all_cons] using h

theorem noSpace_iff (l : List Char) :
    noSpaceChar l = true ↔ ∀ x ∈ l, isGoSpace x = false := by
  simp [noSpaceChar, List.all_eq_true]

theorem noSpace_specGlob (l : List Char) (h : noSpaceChar l = true) :
    noSpaceChar (specGlobTranslate l) = true := by
  induction l with
  | nil => rfl
  | cons a rest ih =>
    have ha := (noSpace_cons h).1
    have hg := ih (noSpace_cons h).2
    by_cases hs : a = '*'
    · simp [specGlobTranslate, hs, noSpaceChar, List.all_cons]
      simp [noSpaceChar] at hg
      exact ⟨by decide, by decide, hg⟩
    · by_cases hq : a = '?'
      · simp [specGlobTranslate, hs, hq, noSpaceChar, List.all_cons]
        simp [noSpaceChar] at hg
        exact ⟨by decide, hg⟩
      · simp [specGlobTranslate, hs, hq, noSpaceChar, List.all_cons]
        simp [noSpaceChar] at hg
        exact ⟨by simp [ha], hg⟩

theorem dropWhile_of_noSpace (l : List Char) (h : noSpaceChar l = true) :
    l.dropWhile isGoSpace = l := by
  cases l with
  | nil => rfl
  | cons a rest =>
    have ha := (noSpace_cons h).1
    simp [List.dropWhile, ha]

theorem noSpace_reverse (l : List Char) (h : noSpaceChar l = true) :
    noSpaceChar l.reverse = true := by
  rw [noSpace_iff] at h ⊢
  intro x hx
  exact h x (List.mem_reverse.mp hx)

theorem trimSpace_cons_space (l : List Char) (h : noSpaceChar l = true) :
    trimSpaceList (' ' :: l) = l := by
  unfold trimSpaceList
  have h1 : (' ' :: l).dropWhile isGoSpace = l.dropWhile isGoSpace := by
    simp [List.dropWhile, isGoSpace]
  rw [h1, dropWhile_of_noSpace l h, dropWhile_of_noSpace l.reverse (noSpace_reverse l h),
    List.reverse_reverse]


/-- C7 counterexample.  PatternToReg does not escape regex
metacharacters: the pattern "/a.b" compiles to the regex `\A/a.b\z` in
which `.` keeps its any-character meaning, so the compiled pattern matches
"/axb" — under the claim (`.` escaped to match only itself literally) it
would not. -/
theorem C7_counterexample :
    PatternToReg "/a.b" = "\\A/a.b\\z" ∧
    hijackMatches "/a.b" "/axb" = true ∧
    ("/axb" : String) ≠ "/a.b" := by
  decide

/-- C7 (amended): for every non-empty pattern containing no backslash, no
whitespace, and no doubled `*` or `?`, PatternToReg anchors the pattern
with `\A`/`\z` and rewrites every `*` to `.*` and every `?` to `.`,
passing every other character through UNCHANGED — ordinary regex
metacharacters are not escaped and keep their regex meaning.  The spec's
concrete examples hold: "/foo/*" matches "/foo/bar/baz" but not "/fool",
and "/a?b" matches "/axb" but not "/ab" or "/axxb". -/
theorem C7_pattern_translation (p : String) (hne : p ≠ "")
    (hbs : '\\' ∉ p.toList) (hsp : noSpaceChar p.toList = true)
    (hst : noConsecutive '*' p.toList = true) (hqs : noConsecutive '?' p.toList = true) :
    PatternToReg p = String.mk ('\\' :: 'A' :: specGlobTranslate p.toList ++ ['\\', 'z']) ∧
    hijackMatches "/foo/*" "/foo/bar/baz" = true ∧
    hijackMatches "/foo/*" "/fool" = false ∧
    hijackMatches "/a?b" "/axb" = true ∧
    hijackMatches "/a?b" "/ab" = false ∧
    hijackMatches "/a?b" "/axxb" = false := by
  refine ⟨?_, by decide, by decide, by decide, by decide, by decide⟩
  unfold PatternToReg
  rw [if_neg hne]
  have h1 : replStar (' ' :: p.toList) = ' ' :: starNaive p.toList :=
    replStar_eq_naive p.toList.length p.toList (Nat.le_refl _) hbs hst ' ' (by decide)
  rw [h1]
  have h2 : replQues (' ' :: starNaive p.toList) = ' ' :: quesNaive (starNaive p.toList) :=
    replQues_eq_naive (starNaive p.toList).length _ (Nat.le_refl _)
      (starNaive_no_bs p.toList hbs) (noConsecutive_ques_starNaive p.toList hqs) ' ' (by decide)
  rw [h2, quesNaive_starNaive]
  rw [trimSpace_cons_space _ (noSpace_specGlob p.toList hsp)]

/-- C7 witness: the amended translation theorem applied at the concrete
pattern "/foo/*". -/
theorem C7_witness :
    (("/foo/*" : String) ≠ "" ∧ '\\' ∉ ("/foo/*" : String).toList ∧
      noSpaceChar ("/foo/*" : String).toList = true ∧
      noConsecutive '*' ("/foo/*" : String).toList = true ∧
      noConsecutive '?' ("/foo/*" : String).toList = true) ∧
    PatternToReg "/foo/*" =
      String.mk ('\\' :: 'A' :: specGlobTranslate ("/foo/*" : String).toList ++ ['\\', 'z']) :=
  ⟨⟨by decide, by decide, by decide, by decide, by decide⟩,
    (C7_pattern_translation "/foo/*" (by decide) (by decide) (by decide) (by decide)
      (by decide)).1⟩

end GoRod
